import Mathlib

/-!
Verification of the achievement-report pipeline
(`achievement_report_app/core/config.py` and
`achievement_report_app/core/processor.py`).

The Python code is shallowly embedded: raw spreadsheet cell values become
`PyVal`, Python floats become `PyFloat` (a rational or NaN), fallible
conversions return `Option`, and each relevant function of the source is
transliterated into an executable Lean definition keeping the source's
branch structure.
-/

/-! ### Configuration (`core/config.py`) -/

/-- Embedding of the `Config` dataclass: three target weights, two score
weights (Python ints), and the attainment expectation (Python float,
modelled as a rational). -/
structure Config where
  ratio_1 : Int
  ratio_2 : Int
  ratio_3 : Int
  regular_score_ratio : Int
  final_score_ratio : Int
  achievement_expectation : ℚ
deriving DecidableEq, Repr

/-- Embedding of `Config.validate` (config.py lines 24-47): returns
`(ok, message)`, checking in order that the target weights sum to 100,
the score weights sum to 100, all five weights are non-negative, and the
expectation lies in [0,1]. -/
def Config.validate (c : Config) : Bool × String :=
  if c.ratio_1 + c.ratio_2 + c.ratio_3 ≠ 100 then
    (false, "目标占比之和必须为100%，当前为" ++ toString (c.ratio_1 + c.ratio_2 + c.ratio_3) ++ "%")
  else if c.regular_score_ratio + c.final_score_ratio ≠ 100 then
    (false, "成绩占比之和必须为100%，当前为" ++ toString (c.regular_score_ratio + c.final_score_ratio) ++ "%")
  else if c.ratio_1 < 0 ∨ c.ratio_2 < 0 ∨ c.ratio_3 < 0 ∨
      c.regular_score_ratio < 0 ∨ c.final_score_ratio < 0 then
    (false, "所有占比必须为非负数")
  else if ¬(0 ≤ c.achievement_expectation ∧ c.achievement_expectation ≤ 1) then
    (false, "达成度期望值必须在0-1之间，当前为" ++ toString c.achievement_expectation)
  else
    (true, "")

/-! ### Student-id validity (processor.py lines 74-85) -/

/-- Number of digit characters of a string, as counted by
`sum(1 for c in sid if c.isdigit())`. -/
def digit_count (s : String) : ℕ := (s.data.filter Char.isDigit).length

/-- Embedding of `is_valid_student_id` (processor.py lines 74-85):
non-empty, length at least 5, no decimal point, and digit characters at
least 80% of the string (the source compares `digit_count / len(sid)`
against `0.8`). -/
def is_valid_student_id (sid : String) : Bool :=
  if sid = "" ∨ sid.length < 5 then false
  else if '.' ∈ sid.data then false
  else decide ((8 : ℚ) / 10 ≤ (digit_count sid : ℚ) / (sid.length : ℚ))

/-! ### Helper lemmas -/

/-- A string with a non-empty left part of an append is non-empty. -/
theorem append_left_ne_empty (a b : String) (h : a ≠ "") : a ++ b ≠ "" := by
  intro hab
  apply h
  apply String.ext
  have h2 : a.data ++ b.data = ([] : List Char) := by
    rw [← String.data_append, hab]
  rw [(List.append_eq_nil.mp h2).1]

/-- Characterization of the accepting branch of `Config.validate`. -/
theorem validate_fst_iff (c : Config) :
    c.validate.1 = true ↔
      (c.ratio_1 + c.ratio_2 + c.ratio_3 = 100 ∧
       c.regular_score_ratio + c.final_score_ratio = 100 ∧
       0 ≤ c.ratio_1 ∧ 0 ≤ c.ratio_2 ∧ 0 ≤ c.ratio_3 ∧
       0 ≤ c.regular_score_ratio ∧ 0 ≤ c.final_score_ratio ∧
       0 ≤ c.achievement_expectation ∧ c.achievement_expectation ≤ 1) := by
  unfold Config.validate
  split_ifs with h1 h2 h3 h4
  · exact iff_of_false (by simp) (fun hc => h1 hc.1)
  · exact iff_of_false (by simp) (fun hc => h2 hc.2.1)
  · refine iff_of_false (by simp) (fun hc => ?_)
    obtain ⟨_, _, a1, a2, a3, a4, a5, _, _⟩ := hc
    rcases h3 with h | h | h | h | h <;> omega
  · push_neg at h3
    exact iff_of_true rfl
      ⟨not_ne_iff.mp h1, not_ne_iff.mp h2, h3.1, h3.2.1, h3.2.2.1,
       h3.2.2.2.1, h3.2.2.2.2, h4.1, h4.2⟩
  · refine iff_of_false (by simp) (fun hc => ?_)
    exact h4 ⟨hc.2.2.2.2.2.2.2.1, hc.2.2.2.2.2.2.2.2⟩

/-- On every rejecting branch, `Config.validate` returns a non-empty
message. -/
theorem validate_msg_ne_empty (c : Config) :
    c.validate.1 = false → c.validate.2 ≠ "" := by
  unfold Config.validate
  split_ifs with h1 h2 h3 h4 <;> intro hf
  · exact append_left_ne_empty _ _ (append_left_ne_empty _ _ (by decide))
  · exact append_left_ne_empty _ _ (append_left_ne_empty _ _ (by decide))
  · decide
  · exact absurd hf (by simp)
  · exact append_left_ne_empty _ _ (by decide)

/-- Claim C2: `Config.validate` accepts iff the target weights sum to 100,
the score weights sum to 100, all five weights are non-negative and the
expectation lies in [0,1]; on rejection the message is non-empty; and the
three concrete examples of the spec behave as stated. -/
theorem config_validate_characterization (c : Config) :
    ((c.validate.1 = true ↔
      (c.ratio_1 + c.ratio_2 + c.ratio_3 = 100 ∧
       c.regular_score_ratio + c.final_score_ratio = 100 ∧
       0 ≤ c.ratio_1 ∧ 0 ≤ c.ratio_2 ∧ 0 ≤ c.ratio_3 ∧
       0 ≤ c.regular_score_ratio ∧ 0 ≤ c.final_score_ratio ∧
       0 ≤ c.achievement_expectation ∧ c.achievement_expectation ≤ 1)) ∧
     (c.validate.1 = false → c.validate.2 ≠ "")) ∧
    (Config.validate ⟨50, 30, 21, 30, 70, 6/10⟩).1 = false ∧
    (Config.validate ⟨50, 30, 20, 30, 70, 3/2⟩).1 = false ∧
    (Config.validate ⟨50, 30, 20, 30, 70, 6/10⟩).1 = true := by
  refine ⟨⟨validate_fst_iff c, validate_msg_ne_empty c⟩, ?_, ?_, ?_⟩
  · cases hb : (Config.validate ⟨50, 30, 21, 30, 70, 6/10⟩).1 with
    | false => rfl
    | true => exact absurd ((validate_fst_iff _).mp hb).1 (by decide)
  · cases hb : (Config.validate ⟨50, 30, 20, 30, 70, 3/2⟩).1 with
    | false => rfl
    | true => exact absurd ((validate_fst_iff _).mp hb).2.2.2.2.2.2.2.2 (by norm_num)
  · exact (validate_fst_iff _).mpr
      ⟨by decide, by decide, by decide, by decide, by decide, by decide,
       by decide, by norm_num, by norm_num⟩

/-- Witness for C2: the rejected example `(50,30,21)` indeed yields a
non-empty message, via the theorem's rejection clause. -/
theorem config_validate_characterization_witness :
    (Config.validate ⟨50, 30, 21, 30, 70, 6/10⟩).2 ≠ "" :=
  (config_validate_characterization ⟨50, 30, 21, 30, 70, 6/10⟩).1.2
    (config_validate_characterization ⟨50, 30, 21, 30, 70, 6/10⟩).2.1

/-! ### Claim C5: student-id validity -/

/-- Characterization of `is_valid_student_id`. -/
theorem valid_id_iff (s : String) :
    is_valid_student_id s = true ↔
      (s ≠ "" ∧ 5 ≤ s.length ∧ ¬ '.' ∈ s.data ∧
       4 * s.length ≤ 5 * digit_count s) := by
  unfold is_valid_student_id
  split_ifs with h1 h2
  · refine iff_of_false (by simp) (fun hc => ?_)
    rcases h1 with h | h
    · exact hc.1 h
    · omega
  · exact iff_of_false (by simp) (fun hc => hc.2.2.1 h2)
  · push_neg at h1
    have hlen : 0 < s.length := by omega
    have hq : ((8 : ℚ) / 10 ≤ (digit_count s : ℚ) / (s.length : ℚ)) ↔
        4 * s.length ≤ 5 * digit_count s := by
      rw [div_le_div_iff₀ (by norm_num) (by exact_mod_cast hlen)]
      constructor
      · intro h
        have h' : (4 * s.length : ℚ) ≤ (5 * digit_count s : ℚ) := by
          linarith
        exact_mod_cast h'
      · intro h
        have h' : (4 * s.length : ℚ) ≤ (5 * digit_count s : ℚ) := by
          exact_mod_cast h
        push_cast at h' ⊢
        linarith
    simp only [decide_eq_true_eq, hq]
    constructor
    · intro h
      exact ⟨h1.1, by omega, h2, h⟩
    · intro h
      exact h.2.2.2

/-- Claim C5: `is_valid_student_id` accepts a string iff it is non-empty,
of length at least 5, without a decimal point, and with digit characters
at least 80% of its characters; plus the four concrete examples of the
spec. -/
theorem is_valid_student_id_characterization (s : String) :
    (is_valid_student_id s = true ↔
      (s ≠ "" ∧ 5 ≤ s.length ∧ ¬ '.' ∈ s.data ∧
       4 * s.length ≤ 5 * digit_count s)) ∧
    is_valid_student_id "20231234567" = true ∧
    is_valid_student_id "0.0282" = false ∧
    is_valid_student_id "ABCD" = false ∧
    is_valid_student_id "12a34" = true := by
  refine ⟨valid_id_iff s, ?_, ?_, ?_, ?_⟩
  · exact (valid_id_iff _).mpr ⟨by decide, by decide, by decide, by decide⟩
  · cases hb : is_valid_student_id "0.0282" with
    | false => rfl
    | true => exact absurd ((valid_id_iff _).mp hb).2.2.1 (by decide)
  · cases hb : is_valid_student_id "ABCD" with
    | false => rfl
    | true => exact absurd ((valid_id_iff _).mp hb).2.1 (by decide)
  · exact (valid_id_iff _).mpr ⟨by decide, by decide, by decide, by decide⟩

/-- Witness for C5: instantiating the characterization at the concrete
valid id shows the four defining conditions hold for it. -/
theorem is_valid_student_id_characterization_witness :
    ("20231234567" : String) ≠ "" ∧ 5 ≤ ("20231234567" : String).length ∧
      ¬ '.' ∈ ("20231234567" : String).data ∧
      4 * ("20231234567" : String).length ≤ 5 * digit_count "20231234567" :=
  (is_valid_student_id_characterization "20231234567").1.mp
    (is_valid_student_id_characterization "20231234567").2.1

/-! ### Cell values and Python string helpers

Raw spreadsheet cells as seen through pandas: a missing cell is NaN,
other cells carry a float or a string.  Python floats are embedded as
`PyFloat` (a rational, or the float NaN, which `float()` conversion
preserves). -/

/-- A Python float: NaN or a rational value. -/
inductive PyFloat where
  | nan : PyFloat
  | val : ℚ → PyFloat
deriving DecidableEq, Repr

/-- A raw cell value as produced by `pd.read_excel`. -/
inductive PyVal where
  | nan : PyVal
  | num : PyFloat → PyVal
  | str : String → PyVal
deriving DecidableEq, Repr

/-- Embedding of `pd.notna`. -/
def notna : PyVal → Bool
  | .nan => false
  | _ => true

/-- Embedding of Python `str()` on a cell value.  Numeric formatting
details are irrelevant to the pipeline (only emptiness and keyword
containment are inspected); the embedding uses the `Repr` rendering. -/
def pyStr : PyVal → String
  | .nan => "nan"
  | .num .nan => "nan"
  | .num (.val q) => toString q
  | .str s => s

/-- Embedding of Python `str.strip()` (drop leading and trailing
whitespace). -/
def stripStr (s : String) : String :=
  ⟨((s.data.dropWhile Char.isWhitespace).reverse.dropWhile
      Char.isWhitespace).reverse⟩

/-- Embedding of `.replace('\n', '').replace('\r', '')`, used to clean
multi-line header cells. -/
def cleanCell (s : String) : String :=
  ⟨s.data.filter (fun c => !(c = '\n' || c = '\r'))⟩

/-- Substring test on character lists (Python's `pat in s`). -/
def listHasSub (l pat : List Char) : Bool :=
  (List.range (l.length + 1)).any (fun i => (l.drop i).take pat.length == pat)

/-- Python's `pat in s` on strings. -/
def strHasSub (s pat : String) : Bool :=
  listHasSub s.data pat.data

/-- Embedding of the `is_empty` helper (processor.py lines 87-96): NaN is
empty, and otherwise a value is empty iff its stripped string form is
empty. -/
def is_empty : PyVal → Bool
  | .nan => true
  | v => stripStr (pyStr v) = ""

/-- Embedding of Python `float(raw)` (processor.py lines 336-338): floats
pass through (NaN included), strings are parsed as optionally signed
decimal numerals, anything else raises. -/
def parseFloat? (s : String) : Option ℚ :=
  let t := (stripStr s).data
  let core : List Char → Option ℚ := fun u =>
    let intPart := u.takeWhile Char.isDigit
    let rest := u.dropWhile Char.isDigit
    let digitsVal : List Char → ℕ :=
      fun cs => cs.foldl (fun a c => a * 10 + (c.toNat - '0'.toNat)) 0
    match rest with
    | [] => if intPart = [] then none else some (digitsVal intPart : ℚ)
    | '.' :: frac =>
      if frac.all Char.isDigit ∧ (intPart ≠ [] ∨ frac ≠ []) then
        some ((digitsVal intPart : ℚ) +
          (digitsVal frac : ℚ) / (10 ^ frac.length))
      else none
    | _ => none
  match t with
  | '-' :: u => (core u).map Neg.neg
  | '+' :: u => core u
  | u => core u

/-- Embedding of `float()` on a raw cell: a float cell converts to itself,
a string cell parses, NaN cells are floats and convert to NaN, and
nothing else converts. -/
def tryFloat : PyVal → Option PyFloat
  | .nan => some .nan
  | .num f => some f
  | .str s => (parseFloat? s).map .val

/-! ### Student records and row classification
(processor.py lines 278-358) -/

/-- A `StudentRecord` as assembled by `extract_students_from_grades`:
the dict with keys `class`, `student_id`, `name`, `final_score`,
`regular_score`, `total_score`, `status`. -/
structure StudentRecord where
  class_name : String
  student_id : String
  name : PyVal
  final_score : Option PyFloat
  regular_score : Option PyFloat
  total_score : Option PyFloat
  status : Option String
deriving DecidableEq, Repr

/-- The fixed special-status keyword list of processor.py line 307. -/
def special_keywords : List String :=
  ["缺考", "缓考", "作弊", "取消", "免修", "旷考"]

/-- Scan score cells in order; the first non-NaN cell whose stripped
string form contains a special keyword yields that stripped string as the
status (processor.py lines 309-317). -/
def findSpecialStatus : List PyVal → Option String
  | [] => none
  | v :: rest =>
    if notna v then
      let raw := stripStr (pyStr v)
      if special_keywords.any (fun k => strHasSub raw k) then some raw
      else findSpecialStatus rest
    else findSpecialStatus rest

/-- Embedding of the per-row classification of
`extract_students_from_grades` (processor.py lines 302-358), applied to a
row whose student id passed `is_valid_student_id`: detect a special
status over the cells `[final, regular, total]`, override with
`成绩为空` when all three cells are empty, and otherwise convert the
three scores, falling back to status `成绩异常` when conversion fails. -/
def classifyRow (student_class student_id : String) (name : PyVal)
    (final_raw regular_raw total_raw : PyVal) : StudentRecord :=
  let special0 := findSpecialStatus [final_raw, regular_raw, total_raw]
  let allEmpty := is_empty final_raw && is_empty regular_raw &&
    is_empty total_raw
  let special := if allEmpty then some "成绩为空" else special0
  match special with
  | some st =>
    ⟨student_class, student_id, name, none, none, none, some st⟩
  | none =>
    match tryFloat final_raw, tryFloat regular_raw, tryFloat total_raw with
    | some f, some r, some t =>
      ⟨student_class, student_id, name, some f, some r, some t, none⟩
    | _, _, _ =>
      ⟨student_class, student_id, name, none, none, none, some "成绩异常"⟩

/-- The fully-numeric record shape: all three scores present, no status. -/
def fullyNumeric (r : StudentRecord) : Prop :=
  r.final_score.isSome ∧ r.regular_score.isSome ∧ r.total_score.isSome ∧
    r.status = none

/-- The special record shape: all three scores null, status present. -/
def fullyNullWithStatus (r : StudentRecord) : Prop :=
  r.final_score = none ∧ r.regular_score = none ∧ r.total_score = none ∧
    r.status ≠ none

/-! ### Claim C1: row-classification invariant -/

/-- Claim C1: every record produced by the row classifier is either
fully numeric with no status, or fully null-scored with a status —
exactly one of the two, never both, never neither. -/
theorem row_classification_invariant (sc sid : String) (nm f r t : PyVal) :
    Xor' (fullyNumeric (classifyRow sc sid nm f r t))
      (fullyNullWithStatus (classifyRow sc sid nm f r t)) := by
  unfold classifyRow
  dsimp only []
  cases hsp : (if (is_empty f && is_empty r && is_empty t : Bool) = true
      then some "成绩为空" else findSpecialStatus [f, r, t]) with
  | some st =>
    right
    constructor
    · exact ⟨rfl, rfl, rfl, by simp⟩
    · intro hn
      exact absurd hn.2.2.2 (by simp)
  | none =>
    cases hf : tryFloat f <;> cases hr : tryFloat r <;> cases ht : tryFloat t
    all_goals first
      | (left
         constructor
         · exact ⟨rfl, rfl, rfl, rfl⟩
         · intro hn
           exact absurd hn.1 (by simp))
      | (right
         constructor
         · exact ⟨rfl, rfl, rfl, by simp⟩
         · intro hn
           exact absurd hn.2.2.2 (by simp))

/-! ### Claim C4: special-status detection -/

/-- If the keyword scan finds a status, some scanned cell is non-empty. -/
theorem findSpecialStatus_some_nonempty {l : List PyVal} {st : String}
    (h : findSpecialStatus l = some st) : ∃ v ∈ l, is_empty v = false := by
  induction l with
  | nil => simp [findSpecialStatus] at h
  | cons v rest ih =>
    rw [findSpecialStatus] at h
    by_cases hv : notna v = true
    · rw [if_pos hv] at h
      by_cases hk :
          (special_keywords.any
            (fun k => strHasSub (stripStr (pyStr v)) k)) = true
      · refine ⟨v, List.mem_cons_self v rest, ?_⟩
        cases hvv : v with
        | nan => rw [hvv] at hv; simp [notna] at hv
        | num q =>
          simp only [is_empty, decide_eq_false_iff_not]
          intro hemp
          rw [hvv] at hk
          rw [hemp] at hk
          exact absurd hk (by decide)
        | str s =>
          simp only [is_empty, decide_eq_false_iff_not]
          intro hemp
          rw [hvv] at hk
          rw [hemp] at hk
          exact absurd hk (by decide)
      · rw [if_neg hk] at h
        obtain ⟨w, hw, hwe⟩ := ih h
        exact ⟨w, List.mem_cons_of_mem v hw, hwe⟩
    · rw [if_neg hv] at h
      obtain ⟨w, hw, hwe⟩ := ih h
      exact ⟨w, List.mem_cons_of_mem v hw, hwe⟩

/-- Counterexample to claim C4 as stated: a score cell whose text merely
contains the keyword `缺考` yields the whole stripped cell text as the
status, not the keyword itself. -/
theorem special_status_counterexample :
    strHasSub "缺考(病假)" "缺考" = true ∧
    (classifyRow "A" "12345" (PyVal.str "张三") (PyVal.str "缺考(病假)")
        (PyVal.str "80") (PyVal.str "75")).status ≠ some "缺考" ∧
    (classifyRow "A" "12345" (PyVal.str "张三") (PyVal.str "缺考(病假)")
        (PyVal.str "80") (PyVal.str "75")).status = some "缺考(病假)" := by
  refine ⟨by decide, ?_, by decide⟩
  decide

/-- Claim C4 (amended): when the ordered scan of the score cells
(final, regular, total) finds a cell containing a special keyword, the
record's status is the stripped string form of that whole cell (the
keyword itself only when the cell text equals it), and the record is
special: all three scores null. -/
theorem special_status_from_scan (sc sid : String) (nm f r t : PyVal)
    (st : String) (h : findSpecialStatus [f, r, t] = some st) :
    (classifyRow sc sid nm f r t).status = some st ∧
    (classifyRow sc sid nm f r t).final_score = none ∧
    (classifyRow sc sid nm f r t).regular_score = none ∧
    (classifyRow sc sid nm f r t).total_score = none := by
  have hne : (is_empty f && is_empty r && is_empty t) = false := by
    obtain ⟨v, hv, hve⟩ := findSpecialStatus_some_nonempty h
    have hv3 : v = f ∨ v = r ∨ v = t := by simpa using hv
    rcases hv3 with hv3 | hv3 | hv3 <;> subst hv3 <;> simp [hve]
  unfold classifyRow
  dsimp only []
  rw [hne]
  simp [h]

/-- Witness for the amended C4: a cell that is exactly the keyword
`缓考` produces that keyword as status with all scores null. -/
theorem special_status_from_scan_witness :
    findSpecialStatus [PyVal.str "缓考", PyVal.str "80", PyVal.str "75"] =
      some "缓考" ∧
    (classifyRow "A" "12345" (PyVal.str "张三") (PyVal.str "缓考")
        (PyVal.str "80") (PyVal.str "75")).status = some "缓考" :=
  ⟨by decide,
   (special_status_from_scan "A" "12345" (PyVal.str "张三")
      (PyVal.str "缓考") (PyVal.str "80") (PyVal.str "75") "缓考"
      (by decide)).1⟩

/-! ### Claim C6: sorting (processor.py lines 366-368) -/

/-- The sort key order of `sort_students`: Python's tuple comparison on
`(class_name, student_id)`, lexicographic by code point on both strings
(modelled on the character lists, whose Mathlib order is exactly the
lexicographic one). -/
def studentLE (a b : StudentRecord) : Prop :=
  a.class_name.data < b.class_name.data ∨
    (a.class_name.data = b.class_name.data ∧
     a.student_id.data ≤ b.student_id.data)

instance : DecidableRel studentLE := fun _ _ => instDecidableOr

instance : IsTotal StudentRecord studentLE where
  total a b := by
    rcases lt_trichotomy a.class_name.data b.class_name.data with h | h | h
    · exact Or.inl (Or.inl h)
    · rcases le_total a.student_id.data b.student_id.data with h2 | h2
      · exact Or.inl (Or.inr ⟨h, h2⟩)
      · exact Or.inr (Or.inr ⟨h.symm, h2⟩)
    · exact Or.inr (Or.inl h)

instance : IsTrans StudentRecord studentLE where
  trans a b c hab hbc := by
    rcases hab with h1 | ⟨h1, h1'⟩ <;> rcases hbc with h2 | ⟨h2, h2'⟩
    · exact Or.inl (h1.trans h2)
    · exact Or.inl (h2 ▸ h1)
    · exact Or.inl (h1 ▸ h2)
    · exact Or.inr ⟨h1.trans h2, h1'.trans h2'⟩

/-- Embedding of `sort_students`: Python's `sorted` is a stable sort by
the key `(class, student_id)`; modelled by the stable `insertionSort`
under `studentLE`. -/
def sort_students (l : List StudentRecord) : List StudentRecord :=
  l.insertionSort studentLE

/-- Shorthand for a record carrying only sort-relevant fields. -/
def mkRec (c i : String) : StudentRecord :=
  ⟨c, i, PyVal.str "", none, none, none, none⟩

/-- Claim C6: `sort_students` returns a permutation of its input, sorted
by `(class_name, student_id)` under lexicographic string comparison,
stably (records with equal keys keep their input order); and the spec's
concrete example sorts with "10" before "2". -/
theorem sort_students_spec (l : List StudentRecord) :
    (List.Perm (sort_students l) l ∧
     List.Sorted studentLE (sort_students l) ∧
     (∀ c i : String,
       (sort_students l).filter
          (fun s => s.class_name == c && s.student_id == i) =
        l.filter (fun s => s.class_name == c && s.student_id == i))) ∧
    sort_students [mkRec "C" "2", mkRec "C" "10", mkRec "A" "5"] =
      [mkRec "A" "5", mkRec "C" "10", mkRec "C" "2"] := by
  refine ⟨⟨List.perm_insertionSort studentLE l,
          List.sorted_insertionSort studentLE l, ?_⟩, by decide⟩
  intro c i
  set p : StudentRecord → Bool :=
    fun s => s.class_name == c && s.student_id == i with hp
  have hpair : ∀ x, p x = true → x.class_name = c ∧ x.student_id = i := by
    intro x hx
    rw [hp] at hx
    simp only [Bool.and_eq_true, beq_iff_eq] at hx
    exact hx
  have hpw : (l.filter p).Pairwise studentLE := by
    apply List.pairwise_of_forall_mem_list
    intro a ha b hb
    have ha' := hpair a (List.of_mem_filter ha)
    have hb' := hpair b (List.of_mem_filter hb)
    have hc : a.class_name.data = b.class_name.data :=
      congrArg String.data (ha'.1.trans hb'.1.symm)
    have hi : a.student_id.data = b.student_id.data :=
      congrArg String.data (ha'.2.trans hb'.2.symm)
    exact Or.inr ⟨hc, le_of_eq hi⟩
  have hsub : List.Sublist (l.filter p) (sort_students l) :=
    List.sublist_insertionSort hpw (List.filter_sublist l)
  have hsub2 : List.Sublist ((l.filter p).filter p)
      ((sort_students l).filter p) :=
    hsub.filter p
  have hff : (l.filter p).filter p = l.filter p := by
    rw [List.filter_filter]
    apply List.filter_congr
    intro x _
    cases p x <;> rfl
  rw [hff] at hsub2
  have hlen : ((sort_students l).filter p).length = (l.filter p).length :=
    ((List.perm_insertionSort studentLE l).filter p).length_eq
  exact (hsub2.eq_of_length hlen.symm).symm

/-! ### Claim C7: attainment buckets (processor.py lines 851-892) -/

/-- The five bucket criteria of the statistics sheet, exactly as written
in its `COUNTIF`/`COUNTIFS` formulas: a primary criterion and an optional
secondary criterion per bucket. -/
def bucketCriteria : List (String × Option String) :=
  [(">0.8", none), (">=0.6", some "<=0.8"), (">=0.5", some "<0.6"),
   (">=0.4", some "<0.5"), ("<0.4", none)]

/-- Spreadsheet semantics of a single comparison criterion string on a
numeric cell value. -/
def critSat (c : String) (x : ℚ) : Bool :=
  if c = ">0.8" then decide ((8 : ℚ) / 10 < x)
  else if c = ">=0.6" then decide ((6 : ℚ) / 10 ≤ x)
  else if c = "<=0.8" then decide (x ≤ (8 : ℚ) / 10)
  else if c = ">=0.5" then decide ((5 : ℚ) / 10 ≤ x)
  else if c = "<0.6" then decide (x < (6 : ℚ) / 10)
  else if c = ">=0.4" then decide ((4 : ℚ) / 10 ≤ x)
  else if c = "<0.5" then decide (x < (5 : ℚ) / 10)
  else if c = "<0.4" then decide (x < (4 : ℚ) / 10)
  else false

/-- A numeric value falls in a bucket iff it satisfies the bucket's
criterion and (when present) its secondary criterion, matching
`COUNTIF`/`COUNTIFS` semantics over numeric cells. -/
def bucketSat (b : String × Option String) (x : ℚ) : Bool :=
  critSat b.1 x && (match b.2 with
    | none => true
    | some c => critSat c x)

/-- Bucket 1 unfolded. -/
theorem bucketSat_b1 (x : ℚ) :
    bucketSat (">0.8", none) x = decide ((8 : ℚ) / 10 < x) := by
  simp [bucketSat, critSat]

/-- Bucket 2 unfolded. -/
theorem bucketSat_b2 (x : ℚ) :
    bucketSat (">=0.6", some "<=0.8") x =
      (decide ((6 : ℚ) / 10 ≤ x) && decide (x ≤ (8 : ℚ) / 10)) := by
  simp [bucketSat, critSat]

/-- Bucket 3 unfolded. -/
theorem bucketSat_b3 (x : ℚ) :
    bucketSat (">=0.5", some "<0.6") x =
      (decide ((5 : ℚ) / 10 ≤ x) && decide (x < (6 : ℚ) / 10)) := by
  simp [bucketSat, critSat]

/-- Bucket 4 unfolded. -/
theorem bucketSat_b4 (x : ℚ) :
    bucketSat (">=0.4", some "<0.5") x =
      (decide ((4 : ℚ) / 10 ≤ x) && decide (x < (5 : ℚ) / 10)) := by
  simp [bucketSat, critSat]

/-- Bucket 5 unfolded. -/
theorem bucketSat_b5 (x : ℚ) :
    bucketSat ("<0.4", none) x = decide (x < (4 : ℚ) / 10) := by
  simp [bucketSat, critSat]

/-- Each numeric value satisfies exactly one of the five bucket
predicates. -/
theorem bucketSat_exactly_one (x : ℚ) :
    bucketCriteria.countP (fun b => bucketSat b x) = 1 := by
  simp only [bucketCriteria, List.countP_cons, List.countP_nil,
    bucketSat_b1, bucketSat_b2, bucketSat_b3, bucketSat_b4, bucketSat_b5,
    Bool.and_eq_true, decide_eq_true_eq]
  rcases lt_or_le ((8 : ℚ) / 10) x with h8 | h8
  · have c2 : ¬((6 : ℚ) / 10 ≤ x ∧ x ≤ 8 / 10) := fun hc => by linarith
    have c3 : ¬((5 : ℚ) / 10 ≤ x ∧ x < 6 / 10) := fun hc => by linarith
    have c4 : ¬((4 : ℚ) / 10 ≤ x ∧ x < 5 / 10) := fun hc => by linarith
    have c5 : ¬(x < (4 : ℚ) / 10) := by linarith
    simp [h8, c2, c3, c4, c5]
  · rcases le_or_lt ((6 : ℚ) / 10) x with h6 | h6
    · have c1 : ¬((8 : ℚ) / 10 < x) := not_lt.mpr h8
      have c3 : ¬((5 : ℚ) / 10 ≤ x ∧ x < 6 / 10) := fun hc => by linarith
      have c4 : ¬((4 : ℚ) / 10 ≤ x ∧ x < 5 / 10) := fun hc => by linarith
      have c5 : ¬(x < (4 : ℚ) / 10) := by linarith
      simp [c1, h6, h8, c3, c4, c5]
    · rcases le_or_lt ((5 : ℚ) / 10) x with h5 | h5
      · have c1 : ¬((8 : ℚ) / 10 < x) := by linarith
        have c2 : ¬((6 : ℚ) / 10 ≤ x ∧ x ≤ 8 / 10) := fun hc => by linarith
        have c4 : ¬((4 : ℚ) / 10 ≤ x ∧ x < 5 / 10) := fun hc => by linarith
        have c5 : ¬(x < (4 : ℚ) / 10) := by linarith
        simp [c1, c2, h5, h6, c4, c5]
      · rcases le_or_lt ((4 : ℚ) / 10) x with h4 | h4
        · have c1 : ¬((8 : ℚ) / 10 < x) := by linarith
          have c2 : ¬((6 : ℚ) / 10 ≤ x ∧ x ≤ 8 / 10) := fun hc => by
            linarith
          have c3 : ¬((5 : ℚ) / 10 ≤ x ∧ x < 6 / 10) := fun hc => by
            linarith
          have c5 : ¬(x < (4 : ℚ) / 10) := by linarith
          simp [c1, c2, c3, h4, h5, c5]
        · have c1 : ¬((8 : ℚ) / 10 < x) := by linarith
          have c2 : ¬((6 : ℚ) / 10 ≤ x ∧ x ≤ 8 / 10) := fun hc => by
            linarith
          have c3 : ¬((5 : ℚ) / 10 ≤ x ∧ x < 6 / 10) := fun hc => by
            linarith
          have c4 : ¬((4 : ℚ) / 10 ≤ x ∧ x < 5 / 10) := fun hc => by
            linarith
          simp [c1, c2, c3, c4, h4]

/-- Claim C7: the five bucket predicates partition the numeric values —
each value satisfies exactly one bucket, hence over any population of
numeric cells the five bucket counts sum to the total count (the
`COUNT()` denominator). -/
theorem bucket_partition :
    (∀ x : ℚ, bucketCriteria.countP (fun b => bucketSat b x) = 1) ∧
    (∀ l : List ℚ,
      (bucketCriteria.map (fun b => l.countP (bucketSat b))).sum =
        l.length) := by
  refine ⟨bucketSat_exactly_one, ?_⟩
  intro l
  induction l with
  | nil => simp [bucketCriteria]
  | cons x l ih =>
    have hx := bucketSat_exactly_one x
    simp only [bucketCriteria, List.countP_cons, List.countP_nil,
      List.map_cons, List.map_nil, List.sum_cons, List.sum_nil,
      List.length_cons] at hx ih ⊢
    split_ifs at hx ⊢ <;> omega

/-! ### Claim C9: progress checkpoints
(processor.py lines 51, 360-362, 1042, 376-440) -/

/-- The sequence of percent values reported while processing one file:
the initial 5 of `extract_students_from_grades`, one checkpoint
`5 + ⌊25·k / max n 1⌋` per successfully processed sheet (`m ≤ n` sheets
report, as skipped sheets report nothing), the sort checkpoint 30 of
`process_file`, and the fixed checkpoints of `create_workbook`. -/
def progressTrace (n m : ℕ) : List ℕ :=
  5 :: ((List.range m).map (fun k => 5 + 25 * (k + 1) / max n 1) ++
    [30, 35, 40, 45, 60, 70, 75, 85, 95, 100])

/-- Claim C9: within one file's processing the reported percent values
are monotonically non-decreasing. -/
theorem progress_monotone (n m : ℕ) (h : m ≤ n) :
    List.Sorted (· ≤ ·) (progressTrace n m) := by
  have hmap : ∀ x ∈ (List.range m).map
      (fun k => 5 + 25 * (k + 1) / max n 1), 5 ≤ x ∧ x ≤ 30 := by
    intro x hx
    obtain ⟨k, hk, rfl⟩ := List.mem_map.mp hx
    have hk' : k < m := List.mem_range.mp hk
    have hn1 : 1 ≤ n := le_trans (by omega) h
    have hmax : max n 1 = n := Nat.max_eq_left hn1
    refine ⟨Nat.le_add_right 5 _, ?_⟩
    rw [hmax]
    have hdiv : 25 * (k + 1) / n ≤ 25 * n / n :=
      Nat.div_le_div_right (by omega)
    rw [Nat.mul_div_cancel 25 (by omega)] at hdiv
    omega
  rw [progressTrace, List.sorted_cons]
  constructor
  · intro b hb
    rcases List.mem_append.mp hb with hb | hb
    · exact (hmap b hb).1
    · fin_cases hb <;> omega
  · rw [List.Sorted, List.pairwise_append]
    refine ⟨?_, ?_, ?_⟩
    · rw [List.pairwise_map]
      refine (List.pairwise_lt_range m).imp ?_
      intro a b hab
      exact Nat.add_le_add_left (Nat.div_le_div_right (by omega)) 5
    · decide
    · intro a ha b hb
      have h30 : 30 ≤ b := by fin_cases hb <;> omega
      exact le_trans (hmap a ha).2 h30

/-- Witness for C9: the trace for two sheets out of two is sorted. -/
theorem progress_monotone_witness :
    2 ≤ 2 ∧ List.Sorted (· ≤ ·) (progressTrace 2 2) :=
  ⟨by decide, progress_monotone 2 2 (by decide)⟩

/-! ### Claim C10: class statistics (processor.py lines 370-372, 1021-1056) -/

/-- Embedding of `get_class_statistics`: `Counter` over the records'
class names, i.e. each distinct class name with its multiplicity. -/
def get_class_statistics (l : List StudentRecord) : List (String × ℕ) :=
  let classes := l.map (fun s => s.class_name)
  classes.dedup.map (fun c => (c, classes.count c))

/-- Embedding of the result assembled by `process_file`: the sorted
records' length as `total_students` and their class statistics. -/
def process_file_result (l : List StudentRecord) : ℕ × List (String × ℕ) :=
  (( sort_students l).length, get_class_statistics (sort_students l))

/-- Claim C10: for a non-empty record list, `total_students` equals the
length of the extracted list, the class-statistics counts sum to
`total_students`, and every record is counted under exactly one class
key. -/
theorem class_statistics_consistent (l : List StudentRecord)
    (h : l ≠ []) :
    (process_file_result l).1 = l.length ∧
    (((process_file_result l).2.map Prod.snd).sum =
      (process_file_result l).1) ∧
    (∀ s ∈ l,
      ((process_file_result l).2.map Prod.fst).count s.class_name = 1) := by
  have hlen : (sort_students l).length = l.length :=
    (List.perm_insertionSort studentLE l).length_eq
  refine ⟨hlen, ?_, ?_⟩
  · set m : List String := (sort_students l).map (fun s => s.class_name)
      with hm
    have h1 : (process_file_result l).2.map Prod.snd =
        m.dedup.map (fun c => m.count c) := by
      rw [process_file_result, get_class_statistics]
      simp [List.map_map, Function.comp]
    rw [h1]
    have h2 : (m.dedup.map (fun c => m.count c)).sum =
        m.dedup.toFinset.sum (fun c => m.count c) :=
      (List.sum_toFinset _ (List.nodup_dedup m)).symm
    have h3 : m.dedup.toFinset = m.toFinset := by
      ext a
      simp [List.mem_toFinset, List.mem_dedup]
    rw [h2, h3, List.sum_toFinset_count_eq_length]
    rw [process_file_result]
    simp [hm]
  · intro s hs
    have h1 : (process_file_result l).2.map Prod.fst =
        ((sort_students l).map (fun s => s.class_name)).dedup := by
      rw [process_file_result, get_class_statistics]
      simp [List.map_map, Function.comp_def]
    rw [h1]
    have hmem : s.class_name ∈
        ((sort_students l).map (fun s => s.class_name)).dedup := by
      rw [List.mem_dedup]
      exact List.mem_map_of_mem _
        (((List.perm_insertionSort studentLE l).mem_iff).mpr hs)
    exact List.count_eq_one_of_mem
      (List.nodup_dedup _) hmem

/-- Witness for C10: a concrete two-class list instantiates the
consistency statement. -/
theorem class_statistics_consistent_witness :
    ([mkRec "A" "1", mkRec "B" "2"] : List StudentRecord) ≠ [] ∧
    (process_file_result [mkRec "A" "1", mkRec "B" "2"]).1 =
      ([mkRec "A" "1", mkRec "B" "2"] : List StudentRecord).length :=
  ⟨by decide,
   (class_statistics_consistent [mkRec "A" "1", mkRec "B" "2"]
      (by decide)).1⟩

/-! ### Column groups in the header row (processor.py lines 190-273) -/

/-- A per-group mapping from logical role to column index, seeded by a
student-id column. -/
structure ColMapping where
  student_id : ℕ
  name : Option ℕ
  final_score : Option ℕ
  regular_score : Option ℕ
  total_score : Option ℕ
  class_col : Option ℕ
deriving DecidableEq, Repr

/-- Indices of header cells containing the student-id token `学号`
(processor.py line 198). -/
def studentIdCols (row : List String) : List ℕ :=
  (List.range row.length).filter
    (fun j => strHasSub (row.getD j "") "学号")

/-- Indices of header cells that, after newline cleaning, are exactly a
class-column label (processor.py line 200). -/
def classColsOf (row : List String) : List ℕ :=
  (List.range row.length).filter
    (fun j => cleanCell (row.getD j "") = "班级" ||
      cleanCell (row.getD j "") = "行政班")

/-- Role assignment for one header cell inside a group's window
(processor.py lines 223-246), first match wins per role, specific
total-score tokens before the exact generic ones. -/
def assignCell (row : List String) (m : ColMapping) (j : ℕ) : ColMapping :=
  let cv := stripStr (row.getD j "")
  let c := cleanCell cv
  let m := if strHasSub c "姓名" && m.name.isNone then
      { m with name := some j } else m
  let m := if (strHasSub c "期末成绩" || strHasSub c "期末" ||
      strHasSub c "期末考试") && m.final_score.isNone then
      { m with final_score := some j } else m
  let m := if (strHasSub c "平时成绩" || strHasSub c "平时" ||
      strHasSub c "平时分") && m.regular_score.isNone then
      { m with regular_score := some j } else m
  let m := if m.total_score.isNone then
      (if strHasSub c "总成绩" || strHasSub c "总评成绩" ||
          strHasSub c "总分" then { m with total_score := some j }
       else if c = "成绩" || c = "总评" then
          { m with total_score := some j }
       else m)
    else m
  if (c = "班级" || c = "行政班") && m.class_col.isNone then
    { m with class_col := some j } else m

/-- Build the group seeded at `sidCol`: the window runs from the nearest
class column left of the seed (loop with break, lines 208-213) to the
next class column right of it (lines 216-220), and each cell in the
window is classified (lines 223-246). -/
def buildGroup (row : List String) (classCols : List ℕ) (sidCol : ℕ) :
    ColMapping :=
  let groupStart := ((classCols.takeWhile (fun cc => cc < sidCol)).getLastD 0)
  let groupEnd := ((classCols.find? (fun cc => sidCol < cc)).getD row.length)
  (List.range' groupStart (groupEnd - groupStart)).foldl
    (assignCell row) ⟨sidCol, none, none, none, none, none⟩

/-- The required-role labels a group is missing, in the fixed order of
`required_cols` with the display names of `col_name_map`
(processor.py lines 249-259). -/
def missingColNames (m : ColMapping) : List String :=
  (if m.name.isNone then ["姓名"] else []) ++
  (if m.final_score.isNone then ["期末成绩"] else []) ++
  (if m.regular_score.isNone then ["平时成绩"] else []) ++
  (if m.total_score.isNone then ["总成绩"] else [])

/-- Join a list of strings with the `、` separator (Python
`'、'.join(...)`). -/
def joinSep : List String → String
  | [] => ""
  | [s] => s
  | s :: rest => s ++ "、" ++ joinSep rest

/-- The missing-column warning text of processor.py line 260. -/
def missingWarning (sheet : String) (names : List String) : String :=
  "工作表「" ++ sheet ++ "」: 缺少列「" ++ joinSep names ++ "」，已跳过"

/-- The per-seed loop of processor.py lines 202-260: complete groups are
collected; an incomplete group records a warning only when its seed is
the first student-id column. -/
def processGroups (sheet : String) (row : List String)
    (classCols : List ℕ) (firstSid : Option ℕ) :
    List ℕ → List ColMapping × List String
  | [] => ([], [])
  | c :: rest =>
    let m := buildGroup row classCols c
    let res := processGroups sheet row classCols firstSid rest
    if missingColNames m = [] then (m :: res.1, res.2)
    else if firstSid = some c then
      (res.1, missingWarning sheet (missingColNames m) :: res.2)
    else res

/-- Group collection and warning recording over a located header row. -/
def processHeaderRow (sheet : String) (row : List String) :
    List ColMapping × List String :=
  processGroups sheet row (classColsOf row) (studentIdCols row).head?
    (studentIdCols row)

/-! ### Claim C3: missing-column warnings -/

/-- A header row with two groups separated by class columns: the first
group is complete, the second (seeded by the `学号` cell at index 7)
lacks its score columns. -/
def twoGroupHeaderRow : List String :=
  ["班级", "学号", "姓名", "平时成绩", "期末成绩", "总成绩",
   "班级", "学号", "姓名"]

/-- Counterexample to claim C3 as stated: in `twoGroupHeaderRow` the
group seeded by the second student-id column (index 7) is rejected
(three required roles missing), yet no warning at all is recorded,
because the source only records the warning for the first seed. -/
theorem missing_warning_counterexample :
    7 ∈ studentIdCols twoGroupHeaderRow ∧
    missingColNames (buildGroup twoGroupHeaderRow
      (classColsOf twoGroupHeaderRow) 7) =
      ["期末成绩", "平时成绩", "总成绩"] ∧
    (processHeaderRow "Sheet1" twoGroupHeaderRow).2 = [] ∧
    (processHeaderRow "Sheet1" twoGroupHeaderRow).1 =
      [buildGroup twoGroupHeaderRow (classColsOf twoGroupHeaderRow) 1] := by
  refine ⟨by decide, by decide, by decide, by decide⟩

/-- If the first seed differs from every seed of the list, no warning is
recorded. -/
theorem processGroups_warnings_nil (sheet : String) (row : List String)
    (ccols : List ℕ) (fs : Option ℕ) (sids : List ℕ)
    (hfs : ∀ c ∈ sids, fs ≠ some c) :
    (processGroups sheet row ccols fs sids).2 = [] := by
  induction sids with
  | nil => rfl
  | cons c rest ih =>
    have hrest : ∀ c' ∈ rest, fs ≠ some c' :=
      fun c' hc' => hfs c' (List.mem_cons_of_mem c hc')
    rw [processGroups]
    split_ifs with h1 h2
    · exact ih hrest
    · exact absurd h2 (hfs c (List.mem_cons_self c rest))
    · exact ih hrest

/-- The collected groups are exactly the complete ones, in seed order. -/
theorem processGroups_groups (sheet : String) (row : List String)
    (ccols : List ℕ) (fs : Option ℕ) (sids : List ℕ) :
    (processGroups sheet row ccols fs sids).1 =
      (sids.filter
        (fun c => missingColNames (buildGroup row ccols c) == [])).map
        (buildGroup row ccols) := by
  induction sids with
  | nil => rfl
  | cons c rest ih =>
    rw [processGroups, List.filter_cons]
    by_cases h1 : missingColNames (buildGroup row ccols c) = []
    · rw [if_pos h1, if_pos (by simpa using h1)]
      rw [List.map_cons, ih]
    · rw [if_neg h1,
        if_neg (show ¬((missingColNames (buildGroup row ccols c) == []) =
          true) from by simpa using h1)]
      split_ifs with h2
      · exact ih
      · exact ih

/-- Claim C3 (amended): a rejected group produces a missing-columns
warning naming exactly its missing labels only when it is seeded by the
first student-id column; all later rejected groups are discarded
silently, and the collected groups are exactly the complete ones. -/
theorem missing_warning_characterization (sheet : String)
    (row : List String) :
    ((processHeaderRow sheet row).2 =
      match (studentIdCols row).head? with
      | none => []
      | some c =>
        if missingColNames (buildGroup row (classColsOf row) c) = []
        then []
        else [missingWarning sheet
          (missingColNames (buildGroup row (classColsOf row) c))]) ∧
    (processHeaderRow sheet row).1 =
      ((studentIdCols row).filter
        (fun c =>
          missingColNames (buildGroup row (classColsOf row) c) == [])).map
        (buildGroup row (classColsOf row)) := by
  refine ⟨?_, processGroups_groups sheet row (classColsOf row) _ _⟩
  rw [processHeaderRow]
  cases hs : studentIdCols row with
  | nil => rfl
  | cons c rest =>
    have hnodup : (studentIdCols row).Nodup :=
      (List.nodup_range row.length).filter _
    rw [hs] at hnodup
    have hcrest : c ∉ rest := (List.nodup_cons.mp hnodup).1
    rw [List.head?_cons, processGroups]
    dsimp only []
    have hrest : ∀ c' ∈ rest, (some c : Option ℕ) ≠ some c' := by
      intro c' hc' he
      exact hcrest ((Option.some_inj.mp he) ▸ hc')
    split_ifs with h1 h2
    · rw [processGroups_warnings_nil sheet row (classColsOf row)
        (some c) rest hrest]
    · rw [processGroups_warnings_nil sheet row (classColsOf row)
        (some c) rest hrest]
    · exact absurd rfl h2

/-! ### Claim C8: workbook synthesis for one data row
(processor.py lines 558-720) -/

/-- A value written into an output cell: a string (labels, statuses and
formula texts), a float, a rational (the expectation), a sequence
number, or a raw carried-over cell value (the name field). -/
inductive CellVal where
  | s : String → CellVal
  | f : PyFloat → CellVal
  | q : ℚ → CellVal
  | n : ℕ → CellVal
  | raw : PyVal → CellVal
deriving DecidableEq, Repr

/-- The K-V column formulas of processor.py lines 641-657. -/
def rateFormula (row col : ℕ) : String :=
  let r := toString row
  if col = 11 then "=(ROUND(F" ++ r ++ "*$C$1/100,0)/$C$1)*100"
  else if col = 12 then "=(ROUND(F" ++ r ++ "*$D$1/100,0)/$D$1)*100"
  else if col = 13 then "=(ROUND(F" ++ r ++ "*$E$1/100,0)/$E$1)*100"
  else if col = 14 then "=F" ++ r
  else if col = 15 then "=(ROUND(G" ++ r ++ "*$C$1/100,0)/$C$1)*100"
  else if col = 16 then "=(ROUND(G" ++ r ++ "*$D$1/100,0)/$D$1)*100"
  else if col = 17 then "=(ROUND(G" ++ r ++ "*$E$1/100,0)/$E$1)*100"
  else if col = 18 then "=G" ++ r
  else if col = 19 then "=K" ++ r ++ "*$M$1/100+O" ++ r ++ "*$Q$1/100"
  else if col = 20 then "=L" ++ r ++ "*$M$1/100+P" ++ r ++ "*$Q$1/100"
  else if col = 21 then "=M" ++ r ++ "*$M$1/100+Q" ++ r ++ "*$Q$1/100"
  else if col = 22 then "=H" ++ r
  else if col = 23 then "=S" ++ r ++ "/100"
  else if col = 24 then "=T" ++ r ++ "/100"
  else "=U" ++ r ++ "/100"

/-- The value written by `_fill_student_data` (processor.py lines
558-664) into column `col` of the data row of student `s` (at list index
`idx`, sheet row `row`); `none` when the cell gets no value. -/
def studentDataValue (s : StudentRecord) (idx row col : ℕ) :
    Option CellVal :=
  if col = 1 then some (.s s.class_name)
  else if col = 2 then some (.s s.student_id)
  else if col = 9 then some (.n (idx + 1))
  else if col = 10 then some (.raw s.name)
  else if s.status.isSome then
    if col = 8 then s.status.map CellVal.s else none
  else
    if col = 3 then
      some (.s ("=ROUND(H" ++ toString row ++ "*$C$1/100,0)"))
    else if col = 4 then
      some (.s ("=ROUND(H" ++ toString row ++ "*$D$1/100,0)"))
    else if col = 5 then
      some (.s ("=ROUND(H" ++ toString row ++ "*$E$1/100,0)"))
    else if col = 6 then s.regular_score.map CellVal.f
    else if col = 7 then s.final_score.map CellVal.f
    else if col = 8 then s.total_score.map CellVal.f
    else if 11 ≤ col ∧ col ≤ 25 then some (.s (rateFormula row col))
    else none

/-- The columns bordered by `_fill_student_data` on a data row; the
special and the normal branch of the source border the same columns
(1-2, 9-10, 3-8, 11-25). -/
def studentDataBordered (col : ℕ) : Bool :=
  col = 1 || col = 2 || col = 9 || col = 10 ||
    (3 ≤ col && col ≤ 8) || (11 ≤ col && col ≤ 25)

/-- The `AVERAGE` broadcast formula of processor.py lines 688-719. -/
def avgFormula (c : String) (ds de : ℕ) : String :=
  "=AVERAGE(" ++ c ++ "$" ++ toString ds ++ ":" ++ c ++ "$" ++
    toString de ++ ")"

/-- The value written by `_fill_achievement_data` (processor.py lines
666-720) into column `col` of the data row of student `s`: the
expectation always lands in columns 29-31, the derived formulas in
columns 26-28, 32, 33 only for non-special rows. -/
def achievementValue (cfg : Config) (s : StudentRecord)
    (row ds de col : ℕ) : Option CellVal :=
  if col = 29 || col = 30 || col = 31 then
    some (.q cfg.achievement_expectation)
  else if s.status.isSome then none
  else if col = 26 then some (.s (avgFormula "W" ds de))
  else if col = 27 then some (.s (avgFormula "X" ds de))
  else if col = 28 then some (.s (avgFormula "Y" ds de))
  else if col = 32 then some (.s ("=V" ++ toString row ++ "/100"))
  else if col = 33 then some (.s (avgFormula "AF" ds de))
  else none

/-- The columns bordered by `_fill_achievement_data` on a data row (the
same 26-33 in both branches). -/
def achievementBordered (col : ℕ) : Bool :=
  col = 29 || col = 30 || col = 31 || col = 26 || col = 27 ||
    col = 28 || col = 32 || col = 33

/-- Claim C8: on a special-status row the synthesizer writes the identity
fields and the status label, leaves every derived-value cell without a
value while still bordering it, and writes the configured expectation
into columns 29-31 — as it does on every data row, special (`s`) or
normal (`s'`). -/
theorem fill_special_row (cfg : Config) (s s' : StudentRecord)
    (idx row ds de : ℕ) (st : String) (h : s.status = some st) :
    studentDataValue s idx row 1 = some (.s s.class_name) ∧
    studentDataValue s idx row 2 = some (.s s.student_id) ∧
    studentDataValue s idx row 9 = some (.n (idx + 1)) ∧
    studentDataValue s idx row 10 = some (.raw s.name) ∧
    studentDataValue s idx row 8 = some (.s st) ∧
    (([3, 4, 5, 6, 7, 11, 12, 13, 14, 15, 16, 17, 18, 19, 20, 21, 22,
        23, 24, 25] : List ℕ).all
      (fun c => (studentDataValue s idx row c).isNone &&
        studentDataBordered c) = true) ∧
    (([26, 27, 28, 32, 33] : List ℕ).all
      (fun c => (achievementValue cfg s row ds de c).isNone &&
        achievementBordered c) = true) ∧
    (([29, 30, 31] : List ℕ).all
      (fun c => achievementValue cfg s row ds de c ==
        some (.q cfg.achievement_expectation)) = true) ∧
    (([29, 30, 31] : List ℕ).all
      (fun c => achievementValue cfg s' row ds de c ==
        some (.q cfg.achievement_expectation)) = true) := by
  refine ⟨by simp [studentDataValue], by simp [studentDataValue],
    by simp [studentDataValue], by simp [studentDataValue],
    by simp [studentDataValue, h], ?_, ?_, ?_, ?_⟩
  · simp [studentDataValue, studentDataBordered, h]
  · simp [achievementValue, achievementBordered, h]
  · simp [achievementValue]
  · simp [achievementValue]

/-- A concrete special-status record. -/
def specialRecordExample : StudentRecord :=
  ⟨"A", "12345", PyVal.str "张三", none, none, none, some "缺考"⟩

/-- Witness for C8: the concrete special record has its status written
in the total-score column and no value in the first derived column. -/
theorem fill_special_row_witness :
    specialRecordExample.status = some "缺考" ∧
    studentDataValue specialRecordExample 0 3 8 =
      some (CellVal.s "缺考") ∧
    studentDataValue specialRecordExample 0 3 1 =
      some (CellVal.s "A") :=
  ⟨rfl,
   (fill_special_row ⟨50, 30, 20, 30, 70, 6/10⟩ specialRecordExample
      (mkRec "B" "2") 0 3 3 5 "缺考" rfl).2.2.2.2.1,
   (fill_special_row ⟨50, 30, 20, 30, 70, 6/10⟩ specialRecordExample
      (mkRec "B" "2") 0 3 3 5 "缺考" rfl).1⟩
